import Mathlib

/-!
Verification of the client-side confirmation workflow of the
freelance_backend repository: the two page controllers
`static/js/student_form.js` (review form: auto-fill, confidence badges,
gated submission) and the upload-certificate page script (validation,
extraction request, error handling).

The DOM-event scripts are embedded shallowly: module-scope mutable maps
(`fieldConfidences`), element values and class lists become fields of an
explicit page-state record; each event listener becomes a state-transition
function; each `fetch` is modelled by passing in the response outcome.
-/

/-- Outcome of one `fetch` call as observed by the page scripts:
a successful response carrying `data.redirect_url`, a non-ok response
(`response.ok` false, which the scripts turn into a thrown `Error`),
or a network failure whose exception message is `msg`. -/
inductive FetchResult where
  | ok (redirectUrl : String)
  | httpError
  | networkError (msg : String)
deriving DecidableEq

/-- `true` exactly on the non-success outcomes (non-ok response or network
failure), the cases that reach a `catch` block in the scripts. -/
def FetchResult.isFailure : FetchResult → Bool
  | .ok _ => false
  | .httpError => true
  | .networkError _ => true

/-- Pointwise update of a string-keyed map, the model of
`obj[key] = value` on a module-scope JavaScript object / DOM lookup. -/
def setStr {α : Type} (m : String → α) (k : String) (v : α) : String → α :=
  fun k' => if k' = k then v else m k'

namespace StudentForm

/-- One entry of `data.extracted_fields`: the extracted `value` string and
the numeric `conf` score (absent scores modelled as `none`). -/
structure ExtractedField where
  value : String
  conf : Option ℚ
deriving DecidableEq

/-- The confidence actually used by the script: `fields[apiField].conf || 0`,
so an absent (or zero) score is treated as `0`. -/
def confVal : Option ℚ → ℚ
  | none => 0
  | some c => c

/-- The extraction result object: an insertion-ordered map from api field
names to extracted fields, as a JavaScript object literal. -/
abbrev Fields := List (String × ExtractedField)

/-- Property lookup `fields[apiField]` on the extraction result. -/
def lookupField (fields : Fields) (api : String) : Option ExtractedField :=
  (List.find? (fun p => p.1 == api) fields).map Prod.snd

/-- The `fieldMap` constant of student_form.js: api field name to DOM
element id of the corresponding form control. -/
def fieldMap : List (String × String) :=
  [("name", "name"),
   ("apaar_id", "apaarId"),
   ("institution_code", "institutionCode"),
   ("organization", "organization"),
   ("internship_title", "internshipTitle"),
   ("start_date", "startDate"),
   ("end_date", "endDate"),
   ("hours", "hours")]

/-- The DOM element ids of the eight auto-fillable form controls. -/
def formFieldIds : List String := fieldMap.map Prod.snd

/-- The eight api-side field names that can carry a confidence score. -/
def apiFieldNames : List String := fieldMap.map Prod.fst

/-- The api field name paired with a given form control id in `fieldMap`. -/
def apiOf (formField : String) : String :=
  ((List.find? (fun e => e.2 == formField) fieldMap).map Prod.fst).getD ""

/-- Derived confidence level, the branch ladder
`conf >= 0.75 / conf >= 0.5 / conf > 0 / otherwise` of `autoFillForm`. -/
inductive ConfLevel where
  | high
  | medium
  | low
  | unset
deriving DecidableEq

/-- Which branch of the confidence ladder a score falls into. The
thresholds `0.75` and `0.5` of the script are written as the rationals
`mkRat 3 4` and `mkRat 1 2`. -/
def levelOf (c : ℚ) : ConfLevel :=
  if mkRat 3 4 ≤ c then .high
  else if mkRat 1 2 ≤ c then .medium
  else if 0 < c then .low
  else .unset

/-- A field needs verification exactly when its badge branch is the
Medium or Low one (warning badge plus `low-confidence-field` marker). -/
def needsVerify (c : ℚ) : Bool :=
  match levelOf c with
  | .medium => true
  | .low => true
  | _ => false

/-- `(conf * 100).toFixed(0)`: the percentage shown inside a badge. -/
def pct (c : ℚ) : String := toString (round (c * 100))

/-- State of one form control: its `value` and the class-list markers the
script toggles (`animate-fill`, `low-confidence-field`, `field-verified`). -/
structure InputEl where
  value : String
  animateFill : Bool
  lowConfidenceField : Bool
  fieldVerified : Bool
deriving DecidableEq

/-- State of one per-field confidence badge element (`<id>_conf`). -/
structure ConfDiv where
  className : String
  textContent : String
deriving DecidableEq

/-- State of the aggregate `confidenceIndicator` banner. -/
structure Banner where
  display : Bool
  className : String
  innerHTML : String
deriving DecidableEq

/-- High-confidence badge contents. -/
def highDiv (c : ℚ) : ConfDiv :=
  ⟨"field-confidence confidence-high", "✓ High confidence (" ++ pct c ++ "%)"⟩

/-- Medium-confidence badge contents. -/
def mediumDiv (c : ℚ) : ConfDiv :=
  ⟨"field-confidence confidence-medium",
   "⚠ Medium confidence (" ++ pct c ++ "%) - Please verify"⟩

/-- Low-confidence badge contents. -/
def lowDiv (c : ℚ) : ConfDiv :=
  ⟨"field-confidence confidence-low",
   "⚠ Low confidence (" ++ pct c ++ "%) - Please verify"⟩

/-- Badge shown after the user edits a field. -/
def verifiedDiv : ConfDiv :=
  ⟨"field-confidence confidence-high", "✓ Verified by student"⟩

/-- The all-high aggregate banner. -/
def affirmBanner : Banner :=
  ⟨true, "alert confidence-indicator-all-high",
   "<strong>✅ All fields high confidence</strong> - Auto-filled data looks accurate"⟩

/-- The attention-needed aggregate banner. -/
def attentionBanner : Banner :=
  ⟨true, "alert confidence-indicator-needs-attention",
   "<strong>⚠️ Some fields require your attention</strong> - Please review and verify highlighted fields"⟩

/-- State of the review page: the form controls, the per-field badges,
the module-scope `fieldConfidences` map, the module-scope
`hasLowConfidence` flag, and the aggregate banner. -/
@[ext]
structure PageState where
  inputs : String → InputEl
  confDivs : String → ConfDiv
  fieldConfidences : String → Option ℚ
  hasLowConfidence : Bool
  banner : Banner

/-- Page state right after load: empty controls, no markers, empty
confidence map, flag cleared, banner hidden. -/
def initState : PageState where
  inputs := fun _ => ⟨"", false, false, false⟩
  confDivs := fun _ => ⟨"", ""⟩
  fieldConfidences := fun _ => none
  hasLowConfidence := false
  banner := ⟨false, "", ""⟩

/-- Body of the `for (const [apiField, formField] of Object.entries(fieldMap))`
loop of `autoFillForm`, one iteration: the accumulator carries the page
state together with the local `allHighConfidence` flag. -/
def autoFillStep (fields : Fields) (acc : PageState × Bool)
    (entry : String × String) : PageState × Bool :=
  match lookupField fields entry.1 with
  | none => acc
  | some ef =>
    if ef.value = "" then acc
    else
      let s := acc.1
      let inp1 : InputEl := { s.inputs entry.2 with animateFill := true, value := ef.value }
      let conf := confVal ef.conf
      let s1 : PageState :=
        { s with inputs := setStr s.inputs entry.2 inp1,
                 fieldConfidences := setStr s.fieldConfidences entry.2 (some conf) }
      match levelOf conf with
      | .high =>
          ({ s1 with confDivs := setStr s1.confDivs entry.2 (highDiv conf) }, acc.2)
      | .medium =>
          ({ s1 with confDivs := setStr s1.confDivs entry.2 (mediumDiv conf),
                     inputs := setStr s1.inputs entry.2 { inp1 with lowConfidenceField := true },
                     hasLowConfidence := true }, false)
      | .low =>
          ({ s1 with confDivs := setStr s1.confDivs entry.2 (lowDiv conf),
                     inputs := setStr s1.inputs entry.2 { inp1 with lowConfidenceField := true },
                     hasLowConfidence := true }, false)
      | .unset => (s1, acc.2)

/-- `autoFillForm(fields)`: reset `hasLowConfidence`, run the field loop,
then show the aggregate banner when `Object.keys(fields).length > 0`. -/
def autoFillForm (fields : Fields) (s0 : PageState) : PageState :=
  let r := fieldMap.foldl (autoFillStep fields) ({ s0 with hasLowConfidence := false }, true)
  if 0 < fields.length then
    if r.2 && !r.1.hasLowConfidence then
      { r.1 with banner := affirmBanner }
    else
      { r.1 with banner := attentionBanner }
  else r.1

/-- The `change` listener attached to every input/textarea/select: the user
set the control to `newValue`; the listener clears the low-confidence
marker, adds the verified marker, forces the recorded confidence to `1.0`
and replaces the badge. -/
def onFieldEdited (fieldId newValue : String) (s : PageState) : PageState :=
  let inp1 : InputEl :=
    { s.inputs fieldId with value := newValue, lowConfidenceField := false, fieldVerified := true }
  let s1 : PageState :=
    { s with inputs := setStr s.inputs fieldId inp1,
             fieldConfidences := setStr s.fieldConfidences fieldId (some 1) }
  { s1 with confDivs := setStr s1.confDivs fieldId verifiedDiv }

/-- The submit listener's gate: the confirmation modal is shown exactly
when the module-scope `hasLowConfidence` flag is set. -/
def submitShowsPrompt (s : PageState) : Bool := s.hasLowConfidence

/-- One user-visible event on the review page. -/
inductive Event where
  | autoFill (fields : Fields)
  | edit (fieldId : String) (newValue : String)

/-- `true` on user-edit events. -/
def isEditEvent : Event → Bool
  | .edit _ _ => true
  | .autoFill _ => false

/-- Apply one event to the page state. -/
def step (s : PageState) : Event → PageState
  | .autoFill fields => autoFillForm fields s
  | .edit id v => onFieldEdited id v s

/-- Apply a sequence of events to the page state. -/
def run (s : PageState) (evs : List Event) : PageState := evs.foldl step s

/-- One entry of the `field_confidences` map of the submission payload. -/
structure ConfEntry where
  value : String
  conf : ℚ
deriving DecidableEq

/-- `buildConfidenceObject()`: for every `fieldMap` entry whose form field
has a recorded confidence, emit the api field name with the control's
current value and that confidence. -/
def buildConfidenceObject (s : PageState) : List (String × ConfEntry) :=
  fieldMap.foldl
    (fun result entry =>
      match s.fieldConfidences entry.2 with
      | some c => result ++ [(entry.1, ⟨(s.inputs entry.2).value, c⟩)]
      | none => result)
    []

/-- The `formData` object POSTed by `submitForm()`. -/
structure Payload where
  upload_id : String
  name : String
  apaar_id : String
  institution_code : String
  organization : String
  internship_title : String
  start_date : String
  end_date : String
  hours : String
  level : String
  logs : String
  field_confidences : List (String × ConfEntry)
deriving DecidableEq

/-- Payload assembly in `submitForm`: current control values plus
`buildConfidenceObject()`. -/
def mkPayload (uploadId : String) (s : PageState) : Payload where
  upload_id := uploadId
  name := (s.inputs "name").value
  apaar_id := (s.inputs "apaarId").value
  institution_code := (s.inputs "institutionCode").value
  organization := (s.inputs "organization").value
  internship_title := (s.inputs "internshipTitle").value
  start_date := (s.inputs "startDate").value
  end_date := (s.inputs "endDate").value
  hours := (s.inputs "hours").value
  level := (s.inputs "level").value
  logs := (s.inputs "logs").value
  field_confidences := buildConfidenceObject s

/-- Observable result of one `submitForm()` invocation: the payloads sent,
the error region, the submit button, and any navigation performed. -/
structure SubmitResult where
  sentPayloads : List Payload
  errorVisible : Bool
  errorText : String
  btnDisabled : Bool
  btnText : String
  navigatedTo : Option String
deriving DecidableEq

/-- The `error.message` seen by the catch block of `submitForm`: a non-ok
response raises `Error('Submission failed')`; a network failure carries its
own message. -/
def submitErrMsg : FetchResult → String
  | .ok _ => ""
  | .httpError => "Submission failed"
  | .networkError m => m

/-- `submitForm()`: disable the button, set the in-progress label, POST the
payload once; on success navigate to `data.redirect_url`; on failure the
catch block shows the prefixed error, re-enables the button and restores
its label. The error region's previous state `errVis0`/`errText0` is kept
on success, where the script leaves it untouched. -/
def submitForm (uploadId : String) (s : PageState) (fetch : FetchResult)
    (errVis0 : Bool) (errText0 : String) : SubmitResult :=
  let payload := mkPayload uploadId s
  match fetch with
  | .ok url =>
      { sentPayloads := [payload], errorVisible := errVis0, errorText := errText0,
        btnDisabled := true, btnText := "Processing...", navigatedTo := some url }
  | .httpError =>
      { sentPayloads := [payload], errorVisible := true,
        errorText := "Submission failed: " ++ "Submission failed",
        btnDisabled := false, btnText := "Submit for Credit Evaluation",
        navigatedTo := none }
  | .networkError m =>
      { sentPayloads := [payload], errorVisible := true,
        errorText := "Submission failed: " ++ m,
        btnDisabled := false, btnText := "Submit for Credit Evaluation",
        navigatedTo := none }

/-- Effect of one `autoFillForm` loop iteration on its own form control,
read off the loop body: when the api field is present with a non-empty
value, the control gets the value, the `animate-fill` class and, in the
Medium/Low branches, the `low-confidence-field` marker. -/
def perInput (fields : Fields) (api : String) (x : InputEl) : InputEl :=
  match lookupField fields api with
  | none => x
  | some ef =>
    if ef.value = "" then x
    else
      match levelOf (confVal ef.conf) with
      | .high => { x with animateFill := true, value := ef.value }
      | .medium => { x with animateFill := true, value := ef.value, lowConfidenceField := true }
      | .low => { x with animateFill := true, value := ef.value, lowConfidenceField := true }
      | .unset => { x with animateFill := true, value := ef.value }

/-- Effect of one `autoFillForm` loop iteration on its own badge. -/
def perConfDiv (fields : Fields) (api : String) (d : ConfDiv) : ConfDiv :=
  match lookupField fields api with
  | none => d
  | some ef =>
    if ef.value = "" then d
    else
      match levelOf (confVal ef.conf) with
      | .high => highDiv (confVal ef.conf)
      | .medium => mediumDiv (confVal ef.conf)
      | .low => lowDiv (confVal ef.conf)
      | .unset => d

/-- Effect of one `autoFillForm` loop iteration on its own recorded
confidence: stored whenever the field is displayed, at any level. -/
def perConf (fields : Fields) (api : String) (v : Option ℚ) : Option ℚ :=
  match lookupField fields api with
  | none => v
  | some ef => if ef.value = "" then v else some (confVal ef.conf)

/-- Whether processing api field `api` of the extraction result sets
`hasLowConfidence` (and clears `allHighConfidence`): the field is present,
displayed (non-empty value) and its score lands in the Medium or Low
branch. -/
def triggerB (fields : Fields) (api : String) : Bool :=
  match lookupField fields api with
  | none => false
  | some ef => ef.value ≠ "" && needsVerify (confVal ef.conf)

/-- At least one auto-filled field lands in the Medium/Low branch. -/
def anyAttention (fields : Fields) : Bool :=
  fieldMap.any fun e => triggerB fields e.1

/-- Whether an event writes a recorded confidence for form control `f`:
a user edit of that control, or an auto-fill whose extraction result
displays the api field mapped to `f`. -/
def recordsConf : Event → String → Bool
  | .edit id _, f => id == f
  | .autoFill fields, f =>
    match List.find? (fun e => e.2 == f) fieldMap with
    | some e =>
      (match lookupField fields e.1 with
       | some ef => decide (ef.value ≠ "")
       | none => false)
    | none => false

/-- Derived level of the recorded confidence of a form control: recorded
score classified by the badge ladder, `unset` when nothing is recorded. -/
def recordedLevel (s : PageState) (f : String) : ConfLevel :=
  match s.fieldConfidences f with
  | none => .unset
  | some c => levelOf c

/-- Extraction result `{hours: {value: "40", conf: 0.4}}`: one Low
confidence field. -/
def c1Fields : Fields := [("hours", ⟨"40", some (mkRat 2 5)⟩)]

/-- Page state after auto-filling `c1Fields` and then the user editing the
`hours` control to `45`. -/
def c1State : PageState := onFieldEdited "hours" "45" (autoFillForm c1Fields initState)

/-- Extraction result `{hours: {value: "", conf: 0.4}}`: a field present
in the extraction result with Low confidence but an empty value. -/
def c6Fields : Fields := [("hours", ⟨"", some (mkRat 2 5)⟩)]

/-- Page state after auto-filling `c6Fields` on a fresh page. -/
def c6State : PageState := autoFillForm c6Fields initState

end StudentForm

namespace UploadPage

/-- State of the upload page: error region, progress section, progress
bar, the extract button, navigation, and the number of extraction
requests actually sent. -/
structure UploadState where
  errorVisible : Bool
  errorText : String
  progressVisible : Bool
  progressPercent : Nat
  progressText : String
  btnDisabled : Bool
  navigatedTo : Option String
  requestsSent : Nat
deriving DecidableEq

/-- Upload page state at load. -/
def initUploadState : UploadState where
  errorVisible := false
  errorText := ""
  progressVisible := false
  progressPercent := 0
  progressText := ""
  btnDisabled := false
  navigatedTo := none
  requestsSent := 0

/-- `showError(message)`: unhide the error region and set its text. -/
def showError (message : String) (s : UploadState) : UploadState :=
  { s with errorVisible := true, errorText := message }

/-- `updateProgress(percent, text)`. -/
def updateProgress (percent : Nat) (text : String) (s : UploadState) : UploadState :=
  { s with progressPercent := percent, progressText := text }

/-- The `error.message` seen by the catch block of the extract listener:
a non-ok response raises `Error('Upload failed')`; a network failure
carries its own message. -/
def uploadErrMsg : FetchResult → String
  | .ok _ => ""
  | .httpError => "Upload failed"
  | .networkError m => m

/-- The `extractBtn` click listener. `hasFile` and `hasText` are the two
locals the listener computes from the DOM
(`certificateFile.files.length > 0` and
`certificateText.value.trim().length > 0`). Validate that exactly one of
file/text is present (otherwise show a validation message and return
without any request), then show progress, disable the button, send the
one upload request, and either navigate to `data.redirect_url` or show
`Extraction failed: ...`, hide progress and re-enable the button. -/
def extractClick (hasFile hasText : Bool) (fetch : FetchResult)
    (s : UploadState) : UploadState :=
  if !hasFile && !hasText then
    showError "Please upload a file or paste certificate text" s
  else if hasFile && hasText then
    showError "Please use either file upload or text paste, not both" s
  else
    let s := { s with errorVisible := false, progressVisible := true, btnDisabled := true }
    let s := updateProgress 25 "Received → Processing..." s
    let s := updateProgress 50 "OCR → Extracting text..." s
    let s := { s with requestsSent := s.requestsSent + 1 }
    match fetch with
    | .ok url =>
        let s := updateProgress 75 "Extracting fields → Analyzing..." s
        let s := updateProgress 100 "Done → Redirecting..." s
        { s with navigatedTo := some url }
    | .httpError =>
        let s := showError ("Extraction failed: " ++ uploadErrMsg .httpError) s
        { s with progressVisible := false, btnDisabled := false }
    | .networkError m =>
        let s := showError ("Extraction failed: " ++ uploadErrMsg (.networkError m)) s
        { s with progressVisible := false, btnDisabled := false }

end UploadPage

theorem setStr_same {α : Type} (m : String → α) (k : String) (v : α) :
    setStr m k v k = v := by
  simp [setStr]

theorem setStr_ne {α : Type} (m : String → α) (k k' : String) (v : α)
    (h : k' ≠ k) : setStr m k v k' = m k' := by
  simp [setStr, h]

namespace StudentForm

theorem step_inputs_own (fields : Fields) (sb : PageState × Bool) (e : String × String) :
    ((autoFillStep fields sb e).1).inputs e.2 = perInput fields e.1 (sb.1.inputs e.2) := by
  unfold autoFillStep perInput
  cases lookupField fields e.1 with
  | none => rfl
  | some ef =>
    by_cases hv : ef.value = ""
    · simp [hv]
    · cases hl : levelOf (confVal ef.conf) <;> simp [hv, hl, setStr]

theorem step_inputs_other (fields : Fields) (sb : PageState × Bool) (e : String × String)
    (f : String) (h : f ≠ e.2) :
    ((autoFillStep fields sb e).1).inputs f = sb.1.inputs f := by
  unfold autoFillStep
  cases lookupField fields e.1 with
  | none => rfl
  | some ef =>
    by_cases hv : ef.value = ""
    · simp [hv]
    · cases hl : levelOf (confVal ef.conf) <;> simp [hv, hl, setStr, h]

theorem step_confDivs_own (fields : Fields) (sb : PageState × Bool) (e : String × String) :
    ((autoFillStep fields sb e).1).confDivs e.2 = perConfDiv fields e.1 (sb.1.confDivs e.2) := by
  unfold autoFillStep perConfDiv
  cases lookupField fields e.1 with
  | none => rfl
  | some ef =>
    by_cases hv : ef.value = ""
    · simp [hv]
    · cases hl : levelOf (confVal ef.conf) <;> simp [hv, hl, setStr]

theorem step_confDivs_other (fields : Fields) (sb : PageState × Bool) (e : String × String)
    (f : String) (h : f ≠ e.2) :
    ((autoFillStep fields sb e).1).confDivs f = sb.1.confDivs f := by
  unfold autoFillStep
  cases lookupField fields e.1 with
  | none => rfl
  | some ef =>
    by_cases hv : ef.value = ""
    · simp [hv]
    · cases hl : levelOf (confVal ef.conf) <;> simp [hv, hl, setStr, h]

theorem step_conf_own (fields : Fields) (sb : PageState × Bool) (e : String × String) :
    ((autoFillStep fields sb e).1).fieldConfidences e.2
      = perConf fields e.1 (sb.1.fieldConfidences e.2) := by
  unfold autoFillStep perConf
  cases lookupField fields e.1 with
  | none => rfl
  | some ef =>
    by_cases hv : ef.value = ""
    · simp [hv]
    · cases hl : levelOf (confVal ef.conf) <;> simp [hv, hl, setStr]

theorem step_conf_other (fields : Fields) (sb : PageState × Bool) (e : String × String)
    (f : String) (h : f ≠ e.2) :
    ((autoFillStep fields sb e).1).fieldConfidences f = sb.1.fieldConfidences f := by
  unfold autoFillStep
  cases lookupField fields e.1 with
  | none => rfl
  | some ef =>
    by_cases hv : ef.value = ""
    · simp [hv]
    · cases hl : levelOf (confVal ef.conf) <;> simp [hv, hl, setStr, h]

theorem step_hasLow (fields : Fields) (sb : PageState × Bool) (e : String × String) :
    ((autoFillStep fields sb e).1).hasLowConfidence
      = (sb.1.hasLowConfidence || triggerB fields e.1) := by
  unfold autoFillStep triggerB
  cases lookupField fields e.1 with
  | none => simp
  | some ef =>
    by_cases hv : ef.value = ""
    · simp [hv]
    · cases hl : levelOf (confVal ef.conf) <;> simp [hv, hl, needsVerify]

theorem step_allHigh (fields : Fields) (sb : PageState × Bool) (e : String × String) :
    (autoFillStep fields sb e).2 = (sb.2 && !triggerB fields e.1) := by
  unfold autoFillStep triggerB
  cases lookupField fields e.1 with
  | none => simp
  | some ef =>
    by_cases hv : ef.value = ""
    · simp [hv]
    · cases hl : levelOf (confVal ef.conf) <;> simp [hv, hl, needsVerify]

theorem step_banner (fields : Fields) (sb : PageState × Bool) (e : String × String) :
    ((autoFillStep fields sb e).1).banner = sb.1.banner := by
  unfold autoFillStep
  cases lookupField fields e.1 with
  | none => rfl
  | some ef =>
    by_cases hv : ef.value = ""
    · simp [hv]
    · cases hl : levelOf (confVal ef.conf) <;> simp [hv, hl]

theorem fold_inputs (fields : Fields) (l : List (String × String))
    (hnd : (l.map Prod.snd).Nodup) (sb : PageState × Bool) (f : String) :
    ((l.foldl (autoFillStep fields) sb).1).inputs f =
      match List.find? (fun e => e.2 == f) l with
      | some e => perInput fields e.1 (sb.1.inputs f)
      | none => sb.1.inputs f := by
  induction l generalizing sb with
  | nil => rfl
  | cons e0 l' ih =>
    simp only [List.foldl_cons]
    rw [List.map_cons, List.nodup_cons] at hnd
    rcases hnd with ⟨h0, hnd'⟩
    by_cases h : e0.2 = f
    · have hfind : List.find? (fun e => e.2 == f) l' = none := by
        apply List.find?_eq_none.mpr
        intro x hx
        simp only [beq_iff_eq]
        intro hxf
        exact h0 (by simpa [hxf, h] using List.mem_map_of_mem Prod.snd hx)
      rw [ih hnd', hfind]
      have := step_inputs_own fields sb e0
      rw [h] at this
      rw [this]
      simp [List.find?_cons, h]
    · have hne : (fun e => e.2 == f) e0 = false := by simp [h]
      rw [ih hnd', step_inputs_other fields sb e0 f (fun hf => h hf.symm)]
      simp [List.find?_cons, hne]

theorem fold_confDivs (fields : Fields) (l : List (String × String))
    (hnd : (l.map Prod.snd).Nodup) (sb : PageState × Bool) (f : String) :
    ((l.foldl (autoFillStep fields) sb).1).confDivs f =
      match List.find? (fun e => e.2 == f) l with
      | some e => perConfDiv fields e.1 (sb.1.confDivs f)
      | none => sb.1.confDivs f := by
  induction l generalizing sb with
  | nil => rfl
  | cons e0 l' ih =>
    simp only [List.foldl_cons]
    rw [List.map_cons, List.nodup_cons] at hnd
    rcases hnd with ⟨h0, hnd'⟩
    by_cases h : e0.2 = f
    · have hfind : List.find? (fun e => e.2 == f) l' = none := by
        apply List.find?_eq_none.mpr
        intro x hx
        simp only [beq_iff_eq]
        intro hxf
        exact h0 (by simpa [hxf, h] using List.mem_map_of_mem Prod.snd hx)
      rw [ih hnd', hfind]
      have := step_confDivs_own fields sb e0
      rw [h] at this
      rw [this]
      simp [List.find?_cons, h]
    · have hne : (fun e => e.2 == f) e0 = false := by simp [h]
      rw [ih hnd', step_confDivs_other fields sb e0 f (fun hf => h hf.symm)]
      simp [List.find?_cons, hne]

theorem fold_conf (fields : Fields) (l : List (String × String))
    (hnd : (l.map Prod.snd).Nodup) (sb : PageState × Bool) (f : String) :
    ((l.foldl (autoFillStep fields) sb).1).fieldConfidences f =
      match List.find? (fun e => e.2 == f) l with
      | some e => perConf fields e.1 (sb.1.fieldConfidences f)
      | none => sb.1.fieldConfidences f := by
  induction l generalizing sb with
  | nil => rfl
  | cons e0 l' ih =>
    simp only [List.foldl_cons]
    rw [List.map_cons, List.nodup_cons] at hnd
    rcases hnd with ⟨h0, hnd'⟩
    by_cases h : e0.2 = f
    · have hfind : List.find? (fun e => e.2 == f) l' = none := by
        apply List.find?_eq_none.mpr
        intro x hx
        simp only [beq_iff_eq]
        intro hxf
        exact h0 (by simpa [hxf, h] using List.mem_map_of_mem Prod.snd hx)
      rw [ih hnd', hfind]
      have := step_conf_own fields sb e0
      rw [h] at this
      rw [this]
      simp [List.find?_cons, h]
    · have hne : (fun e => e.2 == f) e0 = false := by simp [h]
      rw [ih hnd', step_conf_other fields sb e0 f (fun hf => h hf.symm)]
      simp [List.find?_cons, hne]

theorem fold_hasLow (fields : Fields) (l : List (String × String)) (sb : PageState × Bool) :
    ((l.foldl (autoFillStep fields) sb).1).hasLowConfidence
      = (sb.1.hasLowConfidence || l.any (fun e => triggerB fields e.1)) := by
  induction l generalizing sb with
  | nil => simp
  | cons e0 l' ih =>
    simp only [List.foldl_cons, List.any_cons]
    rw [ih, step_hasLow, Bool.or_assoc]

theorem fold_allHigh (fields : Fields) (l : List (String × String)) (sb : PageState × Bool) :
    (l.foldl (autoFillStep fields) sb).2
      = (sb.2 && l.all (fun e => !triggerB fields e.1)) := by
  induction l generalizing sb with
  | nil => simp
  | cons e0 l' ih =>
    simp only [List.foldl_cons, List.all_cons]
    rw [ih, step_allHigh, Bool.and_assoc]

theorem fold_banner (fields : Fields) (l : List (String × String)) (sb : PageState × Bool) :
    ((l.foldl (autoFillStep fields) sb).1).banner = sb.1.banner := by
  induction l generalizing sb with
  | nil => rfl
  | cons e0 l' ih =>
    simp only [List.foldl_cons]
    rw [ih, step_banner]

theorem fieldMap_nodup_snd : (List.map Prod.snd fieldMap).Nodup := by decide

theorem all_not_eq_not_any {α : Type} (l : List α) (p : α → Bool) :
    l.all (fun a => !p a) = !l.any p := by
  induction l with
  | nil => rfl
  | cons a l ih => simp [List.all_cons, List.any_cons, ih, Bool.not_or]

theorem autoFill_inputs (fields : Fields) (s : PageState) (f : String) :
    (autoFillForm fields s).inputs f =
      match List.find? (fun e => e.2 == f) fieldMap with
      | some e => perInput fields e.1 (s.inputs f)
      | none => s.inputs f := by
  have h := fold_inputs fields fieldMap fieldMap_nodup_snd
    ({ s with hasLowConfidence := false }, true) f
  simp only [autoFillForm]
  split_ifs <;> simpa using h

theorem autoFill_confDivs (fields : Fields) (s : PageState) (f : String) :
    (autoFillForm fields s).confDivs f =
      match List.find? (fun e => e.2 == f) fieldMap with
      | some e => perConfDiv fields e.1 (s.confDivs f)
      | none => s.confDivs f := by
  have h := fold_confDivs fields fieldMap fieldMap_nodup_snd
    ({ s with hasLowConfidence := false }, true) f
  simp only [autoFillForm]
  split_ifs <;> simpa using h

theorem autoFill_conf (fields : Fields) (s : PageState) (f : String) :
    (autoFillForm fields s).fieldConfidences f =
      match List.find? (fun e => e.2 == f) fieldMap with
      | some e => perConf fields e.1 (s.fieldConfidences f)
      | none => s.fieldConfidences f := by
  have h := fold_conf fields fieldMap fieldMap_nodup_snd
    ({ s with hasLowConfidence := false }, true) f
  simp only [autoFillForm]
  split_ifs <;> simpa using h

theorem autoFill_hasLow (fields : Fields) (s : PageState) :
    (autoFillForm fields s).hasLowConfidence = anyAttention fields := by
  have h := fold_hasLow fields fieldMap ({ s with hasLowConfidence := false }, true)
  simp only [autoFillForm]
  split_ifs <;> simpa [anyAttention] using h

theorem autoFill_banner (fields : Fields) (s : PageState) :
    (autoFillForm fields s).banner =
      if 0 < fields.length then
        (if anyAttention fields then attentionBanner else affirmBanner)
      else s.banner := by
  have hHL := fold_hasLow fields fieldMap ({ s with hasLowConfidence := false }, true)
  have hAH := fold_allHigh fields fieldMap ({ s with hasLowConfidence := false }, true)
  have hB := fold_banner fields fieldMap ({ s with hasLowConfidence := false }, true)
  simp only [autoFillForm]
  by_cases hlen : 0 < fields.length
  · rw [if_pos hlen, if_pos hlen]
    have hcond : ((List.foldl (autoFillStep fields)
          ({ s with hasLowConfidence := false }, true) fieldMap).2
        && !(List.foldl (autoFillStep fields)
          ({ s with hasLowConfidence := false }, true) fieldMap).1.hasLowConfidence)
        = !anyAttention fields := by
      rw [hAH, hHL]
      simp [all_not_eq_not_any, anyAttention]
    rw [hcond]
    cases hA : anyAttention fields <;> simp
  · rw [if_neg hlen, if_neg hlen]
    simpa using hB

theorem perInput_idem (fields : Fields) (api : String) (x : InputEl) :
    perInput fields api (perInput fields api x) = perInput fields api x := by
  unfold perInput
  cases lookupField fields api with
  | none => rfl
  | some ef =>
    by_cases hv : ef.value = ""
    · simp [hv]
    · cases hl : levelOf (confVal ef.conf) <;> simp [hv, hl]

theorem perConfDiv_idem (fields : Fields) (api : String) (d : ConfDiv) :
    perConfDiv fields api (perConfDiv fields api d) = perConfDiv fields api d := by
  unfold perConfDiv
  cases lookupField fields api with
  | none => rfl
  | some ef =>
    by_cases hv : ef.value = ""
    · simp [hv]
    · cases hl : levelOf (confVal ef.conf) <;> simp [hv, hl]

theorem perConf_idem (fields : Fields) (api : String) (v : Option ℚ) :
    perConf fields api (perConf fields api v) = perConf fields api v := by
  unfold perConf
  cases lookupField fields api with
  | none => rfl
  | some ef =>
    by_cases hv : ef.value = ""
    · simp [hv]
    · simp [hv]

theorem buildConf_aux (s : PageState) (l : List (String × String)) :
    ∀ acc : List (String × ConfEntry),
      l.foldl (fun result entry =>
          match s.fieldConfidences entry.2 with
          | some c => result ++ [(entry.1, (⟨(s.inputs entry.2).value, c⟩ : ConfEntry))]
          | none => result) acc
        = acc ++ l.filterMap (fun entry =>
            (s.fieldConfidences entry.2).map
              (fun c => (entry.1, (⟨(s.inputs entry.2).value, c⟩ : ConfEntry)))) := by
  induction l with
  | nil => intro acc; simp
  | cons a l ih =>
    intro acc
    simp only [List.foldl_cons, List.filterMap_cons]
    cases hg : s.fieldConfidences a.2 <;> simp [hg, ih]

theorem buildConf_char (s : PageState) :
    buildConfidenceObject s
      = fieldMap.filterMap (fun entry =>
          (s.fieldConfidences entry.2).map
            (fun c => (entry.1, (⟨(s.inputs entry.2).value, c⟩ : ConfEntry)))) := by
  rw [buildConfidenceObject]
  simpa using buildConf_aux s fieldMap []

theorem mem_buildConf (s : PageState) (p : String × ConfEntry) :
    p ∈ buildConfidenceObject s
      ↔ ∃ e ∈ fieldMap, ∃ c, s.fieldConfidences e.2 = some c
          ∧ p = (e.1, (⟨(s.inputs e.2).value, c⟩ : ConfEntry)) := by
  rw [buildConf_char, List.mem_filterMap]
  constructor
  · rintro ⟨e, he, hge⟩
    cases hv : s.fieldConfidences e.2 with
    | none => rw [hv] at hge; cases hge
    | some c =>
      rw [hv] at hge
      exact ⟨e, he, c, hv, by simpa using hge.symm⟩
  · rintro ⟨e, he, c, hv, rfl⟩
    exact ⟨e, he, by simp [hv]⟩

theorem fieldMap_key_inj :
    ∀ e1 ∈ fieldMap, ∀ e2 ∈ fieldMap, e1.1 = e2.1 → e1 = e2 := by
  decide

theorem edit_conf_same (f v : String) (s : PageState) :
    (onFieldEdited f v s).fieldConfidences f = some 1 := by
  simp [onFieldEdited, setStr]

theorem edit_conf_other (f v f' : String) (s : PageState) (h : f' ≠ f) :
    (onFieldEdited f v s).fieldConfidences f' = s.fieldConfidences f' := by
  simp [onFieldEdited, setStr, h]

theorem edit_input_same (f v : String) (s : PageState) :
    (onFieldEdited f v s).inputs f
      = { s.inputs f with value := v, lowConfidenceField := false, fieldVerified := true } := by
  simp [onFieldEdited, setStr]

theorem edit_hasLow (f v : String) (s : PageState) :
    (onFieldEdited f v s).hasLowConfidence = s.hasLowConfidence := rfl

theorem run_edits_conf_one (evs : List Event) :
    ∀ s : PageState, (∀ e ∈ evs, isEditEvent e = true) →
      ∀ f : String, s.fieldConfidences f = some 1 →
        (run s evs).fieldConfidences f = some 1 := by
  induction evs with
  | nil => intro s _ f h; exact h
  | cons e evs ih =>
    intro s hall f h
    cases e with
    | autoFill fields =>
      have := hall (Event.autoFill fields) (List.mem_cons_self _ _)
      simp [isEditEvent] at this
    | edit id v =>
      have hall' : ∀ e ∈ evs, isEditEvent e = true :=
        fun e he => hall e (List.mem_cons_of_mem _ he)
      show (run (onFieldEdited id v s) evs).fieldConfidences f = some 1
      apply ih _ hall'
      by_cases hid : f = id
      · subst hid; exact edit_conf_same f v s
      · rw [edit_conf_other id v f s hid]; exact h

theorem run_noRecord_conf (evs : List Event) :
    ∀ s : PageState, ∀ f : String, (∀ e ∈ evs, recordsConf e f = false) →
      (run s evs).fieldConfidences f = s.fieldConfidences f := by
  induction evs with
  | nil => intro s f _; rfl
  | cons e evs ih =>
    intro s f hall
    have h0 := hall e (List.mem_cons_self _ _)
    have hall' : ∀ e ∈ evs, recordsConf e f = false :=
      fun e he => hall e (List.mem_cons_of_mem _ he)
    cases e with
    | edit id v =>
      have hid : id ≠ f := by simpa [recordsConf] using h0
      show (run (onFieldEdited id v s) evs).fieldConfidences f = s.fieldConfidences f
      rw [ih _ _ hall', edit_conf_other id v f s (fun hf => hid hf.symm)]
    | autoFill fields =>
      show (run (autoFillForm fields s) evs).fieldConfidences f = s.fieldConfidences f
      rw [ih _ _ hall', autoFill_conf]
      cases hfind : List.find? (fun e => e.2 == f) fieldMap with
      | none => rfl
      | some e =>
        simp only [recordsConf, hfind] at h0
        show perConf fields e.1 (s.fieldConfidences f) = s.fieldConfidences f
        unfold perConf
        cases hl : lookupField fields e.1 with
        | none => rfl
        | some ef =>
          rw [hl] at h0
          have hv : ef.value = "" := by simpa using h0
          simp [hv]

/-- C3: For every confidence value `c`, the derived confidence level used
for the per-field badge is High iff `c ≥ 0.75`, Medium iff
`0.5 ≤ c < 0.75`, Low iff `0 < c < 0.5`, and Unset (no confidence UI)
iff `c ≤ 0`; an absent confidence is treated as `0`. -/
theorem C3_level_thresholds : ∀ c : ℚ,
    ((levelOf c = ConfLevel.high) ↔ 0.75 ≤ c)
    ∧ ((levelOf c = ConfLevel.medium) ↔ 0.5 ≤ c ∧ c < 0.75)
    ∧ ((levelOf c = ConfLevel.low) ↔ 0 < c ∧ c < 0.5)
    ∧ ((levelOf c = ConfLevel.unset) ↔ c ≤ 0)
    ∧ confVal none = 0 := by
  intro c
  have h34 : (mkRat 3 4 : ℚ) = 0.75 := by rw [Rat.mkRat_eq_div]; norm_num
  have h12 : (mkRat 1 2 : ℚ) = 0.5 := by rw [Rat.mkRat_eq_div]; norm_num
  unfold levelOf
  rw [h34, h12]
  split_ifs with h1 h2 h3 <;>
    refine ⟨?_, ?_, ?_, ?_, rfl⟩ <;>
    constructor <;>
    intro h <;>
    first
      | rfl
      | linarith
      | (exact ⟨by linarith, by linarith⟩)
      | (exfalso; rcases h with ⟨ha, hb⟩; linarith)
      | (exfalso; linarith)
      | (simp at h)

/-- C7: `autoFillForm` is idempotent: applying it twice with the same
extraction result yields exactly the same page state (field values,
recorded confidences, badges, markers and aggregate banner) as applying
it once. -/
theorem C7_autoFill_idempotent (fields : Fields) (s : PageState) :
    autoFillForm fields (autoFillForm fields s) = autoFillForm fields s := by
  apply PageState.ext
  · funext f
    cases hfind : List.find? (fun e => e.2 == f) fieldMap with
    | none => simp only [autoFill_inputs, hfind]
    | some e =>
      simp only [autoFill_inputs, hfind]
      exact perInput_idem fields e.1 (s.inputs f)
  · funext f
    cases hfind : List.find? (fun e => e.2 == f) fieldMap with
    | none => simp only [autoFill_confDivs, hfind]
    | some e =>
      simp only [autoFill_confDivs, hfind]
      exact perConfDiv_idem fields e.1 (s.confDivs f)
  · funext f
    cases hfind : List.find? (fun e => e.2 == f) fieldMap with
    | none => simp only [autoFill_conf, hfind]
    | some e =>
      simp only [autoFill_conf, hfind]
      exact perConf_idem fields e.1 (s.fieldConfidences f)
  · rw [autoFill_hasLow, autoFill_hasLow]
  · rw [autoFill_banner, autoFill_banner]
    by_cases hlen : 0 < fields.length <;> simp [hlen]

/-- C1 (code bug): after auto-fill of a single Low-confidence `hours`
field and a subsequent user edit of `hours`, no field is in Medium or Low
state any more (all recorded confidences are High, no
`low-confidence-field` marker remains, the badge reads Verified), yet
`submit()` still shows the confirmation prompt, because the `change`
listener never clears the module-scope `hasLowConfidence` flag the submit
listener consults. -/
theorem C1_stale_gate :
    submitShowsPrompt c1State = true
    ∧ (∀ f ∈ formFieldIds, recordedLevel c1State f ≠ ConfLevel.medium
        ∧ recordedLevel c1State f ≠ ConfLevel.low)
    ∧ (∀ f ∈ formFieldIds, (c1State.inputs f).lowConfidenceField = false)
    ∧ (c1State.confDivs "hours").textContent = "✓ Verified by student" := by
  decide

/-- C6 counterexample: for the extraction result
`{hours: {value: "", conf: 0.4}}` a field is present in the extraction
result with Low confidence, yet `autoFillForm` shows the affirmative
banner, not the attention-needed one, because fields with an empty value
are skipped when computing `allHighConfidence`. -/
theorem C6_counterexample :
    (∃ p ∈ c6Fields, needsVerify (confVal p.2.conf) = true)
    ∧ c6State.banner = affirmBanner
    ∧ c6State.banner ≠ attentionBanner := by
  decide

/-- C6 (amended): after auto-fill, when the extraction result is
non-empty exactly one banner is displayed: the attention-needed summary
iff at least one recognized field present with a non-empty value has
Medium or Low confidence, and the affirmative summary otherwise; when the
extraction result is empty the banner is left untouched (no banner is
shown on a fresh page). -/
theorem C6_banner_amended (fields : Fields) (s : PageState) :
    (autoFillForm fields s).banner =
      if 0 < fields.length then
        (if anyAttention fields then attentionBanner else affirmBanner)
      else s.banner :=
  autoFill_banner fields s

/-- C2: after the user edits a scored form field, its recorded confidence
is `1.0` (derived level High) regardless of the prior value, and after any
further user edits the submission payload's `field_confidences` still
carries that field with confidence `1.0`, never the stale extraction
score. -/
theorem C2_edit_forces_high (s : PageState) (api f v : String) (evs : List Event)
    (hmem : (api, f) ∈ fieldMap)
    (hevs : ∀ e ∈ evs, isEditEvent e = true) :
    (run (onFieldEdited f v s) evs).fieldConfidences f = some 1
    ∧ recordedLevel (run (onFieldEdited f v s) evs) f = ConfLevel.high
    ∧ (api, (⟨((run (onFieldEdited f v s) evs).inputs f).value, 1⟩ : ConfEntry))
        ∈ buildConfidenceObject (run (onFieldEdited f v s) evs) := by
  have h1 : (run (onFieldEdited f v s) evs).fieldConfidences f = some 1 :=
    run_edits_conf_one evs (onFieldEdited f v s) hevs f (edit_conf_same f v s)
  refine ⟨h1, ?_, ?_⟩
  · unfold recordedLevel
    rw [h1]
    decide
  · exact (mem_buildConf _ _).mpr ⟨(api, f), hmem, 1, h1, rfl⟩

/-- Witness for C2 at concrete inputs: the user edits `hours` on a fresh
page and then edits `name`; the payload still carries `hours` with
confidence `1.0`. -/
theorem C2_witness :
    (("hours", "hours") ∈ fieldMap)
    ∧ (∀ e ∈ ([Event.edit "name" "Asha"] : List Event), isEditEvent e = true)
    ∧ ((run (onFieldEdited "hours" "45" initState) [Event.edit "name" "Asha"]).fieldConfidences
          "hours" = some 1
        ∧ recordedLevel (run (onFieldEdited "hours" "45" initState) [Event.edit "name" "Asha"])
            "hours" = ConfLevel.high
        ∧ ("hours",
            (⟨((run (onFieldEdited "hours" "45" initState)
                  [Event.edit "name" "Asha"]).inputs "hours").value, 1⟩ : ConfEntry))
            ∈ buildConfidenceObject
                (run (onFieldEdited "hours" "45" initState) [Event.edit "name" "Asha"])) :=
  ⟨by decide, by decide,
    C2_edit_forces_high initState "hours" "hours" "45" [Event.edit "name" "Asha"]
      (by decide) (by decide)⟩

/-- C8: the submission payload's `field_confidences` contains an entry
only for fields with a recorded confidence (first part), and for any
sequence of events from page load in which a given scored field is never
auto-filled and never touched, that field stays unrecorded and its api
name is absent from the payload (second part). -/
theorem C8_payload_only_recorded :
    (∀ s : PageState, ∀ p ∈ buildConfidenceObject s,
        ∃ e ∈ fieldMap, p.1 = e.1
          ∧ ∃ c, s.fieldConfidences e.2 = some c ∧ p.2.conf = c)
    ∧ (∀ evs : List Event, ∀ api f : String, (api, f) ∈ fieldMap →
        (∀ e ∈ evs, recordsConf e f = false) →
        (run initState evs).fieldConfidences f = none
        ∧ ∀ p ∈ buildConfidenceObject (run initState evs), p.1 ≠ api) := by
  constructor
  · intro s p hp
    rcases (mem_buildConf s p).mp hp with ⟨e, he, c, hv, rfl⟩
    exact ⟨e, he, rfl, c, hv, rfl⟩
  · intro evs api f hmem hno
    have hnone : (run initState evs).fieldConfidences f = none := by
      rw [run_noRecord_conf evs initState f hno]
      rfl
    refine ⟨hnone, ?_⟩
    intro p hp hpapi
    rcases (mem_buildConf _ p).mp hp with ⟨e, he, c, hv, rfl⟩
    have heq : e = (api, f) :=
      fieldMap_key_inj e he (api, f) hmem (by simpa using hpapi)
    rw [heq] at hv
    rw [hnone] at hv
    cases hv

/-- Witness for C8 at concrete inputs: after a lone edit of `name` on a
fresh page, `hours` has no recorded confidence and is absent from the
payload. -/
theorem C8_witness :
    (("hours", "hours") ∈ fieldMap)
    ∧ (∀ e ∈ ([Event.edit "name" "Asha"] : List Event), recordsConf e "hours" = false)
    ∧ ((run initState [Event.edit "name" "Asha"]).fieldConfidences "hours" = none
        ∧ ∀ p ∈ buildConfidenceObject (run initState [Event.edit "name" "Asha"]),
            p.1 ≠ "hours") :=
  ⟨by decide, by decide,
    C8_payload_only_recorded.2 [Event.edit "name" "Asha"] "hours" "hours"
      (by decide) (by decide)⟩

/-- C10: in every page state the keys of the payload's
`field_confidences` map lie among the eight scored api field names;
editing the passthrough `level` or `logs` controls records confidence
`1.0` in the internal tracking map, but no entry under those names is
ever emitted in the payload. -/
theorem C10_payload_keys_scoped :
    (∀ s : PageState, ∀ p ∈ buildConfidenceObject s, p.1 ∈ apiFieldNames)
    ∧ (∀ s : PageState, ∀ v fid : String, fid = "level" ∨ fid = "logs" →
        (onFieldEdited fid v s).fieldConfidences fid = some 1
        ∧ ∀ p ∈ buildConfidenceObject (onFieldEdited fid v s), p.1 ≠ fid) := by
  have hkeys : ∀ s : PageState, ∀ p ∈ buildConfidenceObject s, p.1 ∈ apiFieldNames := by
    intro s p hp
    rcases (mem_buildConf s p).mp hp with ⟨e, he, c, hv, rfl⟩
    exact List.mem_map_of_mem Prod.fst he
  refine ⟨hkeys, ?_⟩
  intro s v fid hfid
  refine ⟨edit_conf_same fid v s, ?_⟩
  intro p hp hpf
  have hmem := hkeys _ p hp
  rw [hpf] at hmem
  rcases hfid with rfl | rfl
  · exact absurd hmem (by decide)
  · exact absurd hmem (by decide)

/-- Witness for C10 at concrete inputs: editing `level` on a fresh page
records confidence `1.0` internally but emits no `level` payload entry. -/
theorem C10_witness :
    (("level" : String) = "level" ∨ ("level" : String) = "logs")
    ∧ ((onFieldEdited "level" "UG" initState).fieldConfidences "level" = some 1
        ∧ ∀ p ∈ buildConfidenceObject (onFieldEdited "level" "UG" initState),
            p.1 ≠ "level") :=
  ⟨Or.inl rfl, C10_payload_keys_scoped.2 initState "UG" "level" (Or.inl rfl)⟩

/-- C4: whenever the finalize POST fails (non-ok response or network
error), the prefixed error message including the underlying error text is
shown in the error region, the submit control is re-enabled with its
original label restored, no navigation happens, and exactly one payload
was sent (no automatic retry); `submitForm` returns normally, so the page
does not crash. -/
theorem C4_submit_failure (uploadId : String) (s : PageState) (fetch : FetchResult)
    (errVis0 : Bool) (errText0 : String) (h : fetch.isFailure = true) :
    (submitForm uploadId s fetch errVis0 errText0).errorVisible = true
    ∧ (submitForm uploadId s fetch errVis0 errText0).errorText
        = "Submission failed: " ++ submitErrMsg fetch
    ∧ (submitForm uploadId s fetch errVis0 errText0).btnDisabled = false
    ∧ (submitForm uploadId s fetch errVis0 errText0).btnText
        = "Submit for Credit Evaluation"
    ∧ (submitForm uploadId s fetch errVis0 errText0).navigatedTo = none
    ∧ (submitForm uploadId s fetch errVis0 errText0).sentPayloads
        = [mkPayload uploadId s] := by
  cases fetch with
  | ok url => simp [FetchResult.isFailure] at h
  | httpError => exact ⟨rfl, rfl, rfl, rfl, rfl, rfl⟩
  | networkError m => exact ⟨rfl, rfl, rfl, rfl, rfl, rfl⟩

/-- Witness for C4 at a concrete failed submission (network error). -/
theorem C4_witness :
    ((FetchResult.networkError "Failed to fetch").isFailure = true)
    ∧ ((submitForm "u1" initState (FetchResult.networkError "Failed to fetch")
          false "").errorVisible = true
        ∧ (submitForm "u1" initState (FetchResult.networkError "Failed to fetch")
            false "").errorText
            = "Submission failed: " ++ submitErrMsg (FetchResult.networkError "Failed to fetch")
        ∧ (submitForm "u1" initState (FetchResult.networkError "Failed to fetch")
            false "").btnDisabled = false
        ∧ (submitForm "u1" initState (FetchResult.networkError "Failed to fetch")
            false "").btnText = "Submit for Credit Evaluation"
        ∧ (submitForm "u1" initState (FetchResult.networkError "Failed to fetch")
            false "").navigatedTo = none
        ∧ (submitForm "u1" initState (FetchResult.networkError "Failed to fetch")
            false "").sentPayloads = [mkPayload "u1" initState]) :=
  ⟨rfl, C4_submit_failure "u1" initState (FetchResult.networkError "Failed to fetch")
    false "" rfl⟩

end StudentForm

namespace UploadPage

/-- C5: when both of file/text are present, or neither is, the extract
click fails with a validation message shown to the user and no request is
sent (and no navigation or progress change happens); since a request is
sent only past this validation, a request is only ever sent when exactly
one of file/text is non-empty. -/
theorem C5_upload_validation (hasFile hasText : Bool) (fetch : FetchResult)
    (s : UploadState)
    (h : xor hasFile hasText = false) :
    (extractClick hasFile hasText fetch s).requestsSent = s.requestsSent
    ∧ (extractClick hasFile hasText fetch s).errorVisible = true
    ∧ ((extractClick hasFile hasText fetch s).errorText
          = "Please upload a file or paste certificate text"
        ∨ (extractClick hasFile hasText fetch s).errorText
          = "Please use either file upload or text paste, not both")
    ∧ (extractClick hasFile hasText fetch s).navigatedTo = s.navigatedTo
    ∧ (extractClick hasFile hasText fetch s).progressVisible = s.progressVisible
    ∧ (extractClick hasFile hasText fetch s).btnDisabled = s.btnDisabled := by
  cases hasFile with
  | false =>
    cases hasText with
    | false =>
      refine ⟨?_, ?_, Or.inl ?_, ?_, ?_, ?_⟩ <;>
        simp [extractClick, showError]
    | true => simp at h
  | true =>
    cases hasText with
    | false => simp at h
    | true =>
      refine ⟨?_, ?_, Or.inr ?_, ?_, ?_, ?_⟩ <;>
        simp [extractClick, showError]

/-- Witness for C5 at a concrete invalid invocation: file and text both
present. -/
theorem C5_witness :
    (xor true true = false)
    ∧ ((extractClick true true FetchResult.httpError
          initUploadState).requestsSent = initUploadState.requestsSent
        ∧ (extractClick true true FetchResult.httpError
            initUploadState).errorVisible = true
        ∧ ((extractClick true true FetchResult.httpError
              initUploadState).errorText
              = "Please upload a file or paste certificate text"
            ∨ (extractClick true true FetchResult.httpError
                initUploadState).errorText
              = "Please use either file upload or text paste, not both")
        ∧ (extractClick true true FetchResult.httpError
            initUploadState).navigatedTo = initUploadState.navigatedTo
        ∧ (extractClick true true FetchResult.httpError
            initUploadState).progressVisible = initUploadState.progressVisible
        ∧ (extractClick true true FetchResult.httpError
            initUploadState).btnDisabled = initUploadState.btnDisabled) :=
  ⟨by decide,
    C5_upload_validation true true FetchResult.httpError initUploadState
      (by decide)⟩

/-- C9: when validation passes but the upload request fails (non-ok
response such as HTTP 500, or a network failure), the error region shows
exactly the message `Extraction failed: ` followed by the underlying
error text (so it begins with `Extraction failed:`), the progress
indicator is hidden, the trigger control is re-enabled, no navigation
occurs, and exactly one request was sent (no automatic retry). -/
theorem C9_extraction_failure (hasFile hasText : Bool) (fetch : FetchResult)
    (s : UploadState)
    (hv : xor hasFile hasText = true)
    (hf : fetch.isFailure = true) :
    (extractClick hasFile hasText fetch s).errorText
        = "Extraction failed: " ++ uploadErrMsg fetch
    ∧ (∃ rest, (extractClick hasFile hasText fetch s).errorText
        = "Extraction failed:" ++ rest)
    ∧ (extractClick hasFile hasText fetch s).errorVisible = true
    ∧ (extractClick hasFile hasText fetch s).progressVisible = false
    ∧ (extractClick hasFile hasText fetch s).btnDisabled = false
    ∧ (extractClick hasFile hasText fetch s).navigatedTo = s.navigatedTo
    ∧ (extractClick hasFile hasText fetch s).requestsSent = s.requestsSent + 1 := by
  have hmain : (extractClick hasFile hasText fetch s).errorText
        = "Extraction failed: " ++ uploadErrMsg fetch
      ∧ (extractClick hasFile hasText fetch s).errorVisible = true
      ∧ (extractClick hasFile hasText fetch s).progressVisible = false
      ∧ (extractClick hasFile hasText fetch s).btnDisabled = false
      ∧ (extractClick hasFile hasText fetch s).navigatedTo = s.navigatedTo
      ∧ (extractClick hasFile hasText fetch s).requestsSent = s.requestsSent + 1 := by
    cases fetch with
    | ok url => simp [FetchResult.isFailure] at hf
    | httpError =>
      cases hasFile with
      | false =>
        cases hasText with
        | false => simp at hv
        | true =>
          refine ⟨?_, ?_, ?_, ?_, ?_, ?_⟩ <;>
            simp [extractClick, showError, updateProgress, uploadErrMsg]
      | true =>
        cases hasText with
        | true => simp at hv
        | false =>
          refine ⟨?_, ?_, ?_, ?_, ?_, ?_⟩ <;>
            simp [extractClick, showError, updateProgress, uploadErrMsg]
    | networkError m =>
      cases hasFile with
      | false =>
        cases hasText with
        | false => simp at hv
        | true =>
          refine ⟨?_, ?_, ?_, ?_, ?_, ?_⟩ <;>
            simp [extractClick, showError, updateProgress, uploadErrMsg]
      | true =>
        cases hasText with
        | true => simp at hv
        | false =>
          refine ⟨?_, ?_, ?_, ?_, ?_, ?_⟩ <;>
            simp [extractClick, showError, updateProgress, uploadErrMsg]
  refine ⟨hmain.1, ⟨" " ++ uploadErrMsg fetch, ?_⟩, hmain.2⟩
  rw [hmain.1, ← String.append_assoc]
  have hsp : ("Extraction failed: " : String) = "Extraction failed:" ++ " " := by decide
  rw [hsp]

/-- Witness for C9 at a concrete failed extraction: pasted text with an
HTTP 500 response. -/
theorem C9_witness :
    (xor false true = true)
    ∧ (FetchResult.httpError.isFailure = true)
    ∧ ((extractClick false true FetchResult.httpError
          initUploadState).errorText
          = "Extraction failed: " ++ uploadErrMsg FetchResult.httpError
        ∧ (∃ rest, (extractClick false true FetchResult.httpError
              initUploadState).errorText = "Extraction failed:" ++ rest)
        ∧ (extractClick false true FetchResult.httpError
            initUploadState).errorVisible = true
        ∧ (extractClick false true FetchResult.httpError
            initUploadState).progressVisible = false
        ∧ (extractClick false true FetchResult.httpError
            initUploadState).btnDisabled = false
        ∧ (extractClick false true FetchResult.httpError
            initUploadState).navigatedTo = initUploadState.navigatedTo
        ∧ (extractClick false true FetchResult.httpError
            initUploadState).requestsSent = initUploadState.requestsSent + 1) :=
  ⟨by decide, rfl,
    C9_extraction_failure false true FetchResult.httpError initUploadState
      (by decide) rfl⟩

end UploadPage
